import Mathlib

/-!
Verification of the link-analysis variants `heatkernel`
(src/algorithms/link_analysis/heatkernel_alg.py) and `pwp`
(src/algorithms/link_analysis/pwp_alg.py) against their design document.

The two Python functions are embedded shallowly: a networkx graph becomes a
`PyGraph n` (runtime class tag, directedness flag, native node ids in storage
order, and the weighted adjacency matrix the external collaborator
`nx.adjacency_matrix` would return); the scipy dense matrix exponential `expm`
becomes Mathlib's `NormedSpace.exp ℝ` on real matrices; a raised Python
exception becomes the `Except.error` branch.  The result dictionaries are
association lists whose key order mirrors the `zip(f, range(j))` comprehension
of the source.
-/

open scoped BigOperators

/-- Runtime class of a networkx graph object, as seen by `type(G)`.
`MultiGraphSub` / `MultiDiGraphSub` stand for instances of proper subclasses
of `nx.MultiGraph` / `nx.MultiDiGraph`: they still permit parallel edges but
their `type()` is not the base class itself. -/
inductive PyType where
  | Graph
  | DiGraph
  | MultiGraph
  | MultiDiGraph
  | MultiGraphSub
  | MultiDiGraphSub
deriving DecidableEq

/-- Whether a graph of this runtime class permits parallel edges between the
same ordered node pair (i.e. `isinstance(G, (nx.MultiGraph, nx.MultiDiGraph))`). -/
def permitsParallelEdges : PyType → Bool
  | .MultiGraph => true
  | .MultiDiGraph => true
  | .MultiGraphSub => true
  | .MultiDiGraphSub => true
  | _ => false

/-- Modelled from the spec: the external graph collaborator.  `nodes` lists the
native node ids in the deterministic iteration order the adjacency matrix uses
(index `i` of the matrix corresponds to node `nodes i`); `adj i j` is the
weight of the (aggregated) edge from node `nodes i` to node `nodes j`, `0` if
absent.  For an undirected graph the stored adjacency is symmetric, so
`to_directed` (synthesizing `u → v` and `v → u` for every undirected edge)
leaves the matrix unchanged and only the directedness flag flips. -/
structure PyGraph (n : ℕ) where
  pytype : PyType
  directed : Bool
  nodes : Fin n → ℕ
  adj : Matrix (Fin n) (Fin n) ℝ

/-- A raised Python exception, carrying its message. -/
inductive PyErr where
  | exception (msg : String)
deriving DecidableEq

/-- Modelled from the spec: `G.to_directed()` returns a new directed graph with
`u → v` and `v → u` for every undirected edge; with symmetric storage this is
the same adjacency matrix under a directed flag.  The input graph is untouched. -/
def to_directed {n : ℕ} (G : PyGraph n) : PyGraph n :=
  { G with directed := true }

/-- Modelled from the spec: `nx.adjacency_matrix(D)`, the weighted adjacency
matrix in the graph's node iteration order. -/
def adjacency_matrix {n : ℕ} (G : PyGraph n) : Matrix (Fin n) (Fin n) ℝ :=
  G.adj

/-- The graph `D` both sources build: `G` itself when directed, otherwise
`G.to_directed()`. -/
def directedView {n : ℕ} (G : PyGraph n) : PyGraph n :=
  if G.directed then G else to_directed G

/-- `A = sp.transpose(nx.adjacency_matrix(D))`, the transposed adjacency matrix
both scorers work on. -/
def matrix_t {n : ℕ} (G : PyGraph n) : Matrix (Fin n) (Fin n) ℝ :=
  (adjacency_matrix (directedView G)).transpose

/-- `sp.expm1(k) = exp(k) - 1`. -/
noncomputable def expm1 (x : ℝ) : ℝ :=
  Real.exp x - 1

/-- `scipy.linalg.matfuncs.expm`, the dense matrix exponential. -/
noncomputable def expm {n : ℕ} (M : Matrix (Fin n) (Fin n) ℝ) : Matrix (Fin n) (Fin n) ℝ :=
  NormedSpace.exp ℝ M

/-- The value both functions return: the dictionaries
`{i: number for number, i in zip(f, range(j))}` as association lists in key
order `0, 1, ..., j-1`. -/
structure IndResult where
  influences : List (ℕ × ℝ)
  dependences : List (ℕ × ℝ)

/-- The shared tail of both sources (lines 91-102 of each file): reduce the
transform matrix `T` along axis 0 and axis 1, normalize each vector by its own
sum, and build the two dictionaries keyed by `range(j)`. -/
noncomputable def mkResult (n : ℕ) (T : Matrix (Fin n) (Fin n) ℝ) : IndResult :=
  let f : Fin n → ℝ := fun j => ∑ i, T i j
  let fN : Fin n → ℝ := fun j => f j / ∑ j2, f j2
  let d : Fin n → ℝ := fun i => ∑ j, T i j
  let dN : Fin n → ℝ := fun i => d i / ∑ i2, d i2
  { influences := (List.finRange n).map fun i => (i.val, fN i)
    dependences := (List.finRange n).map fun i => (i.val, dN i) }

/-- The transform matrix of heatkernel_alg.py line 89:
`I = matf.expm(k * (A - sp.eye(j, j)))`. -/
noncomputable def heatT {n : ℕ} (G : PyGraph n) (k : ℝ) : Matrix (Fin n) (Fin n) ℝ :=
  expm (k • (matrix_t G - 1))

/-- The transform matrix of pwp_alg.py line 88:
`I = (matf.expm(k * A) - sp.eye(j, j)) / (sp.expm1(k))`
(elementwise division by the scalar denominator, as numpy performs it). -/
noncomputable def pwpT {n : ℕ} (G : PyGraph n) (k : ℝ) : Matrix (Fin n) (Fin n) ℝ :=
  Matrix.of fun i j => (expm (k • matrix_t G) - 1) i j / expm1 k

/-- `heatkernel(G, k)` of heatkernel_alg.py.  The only exception the function
itself raises (scipy import errors aside) is the exact-runtime-type multiedge
check of line 73. -/
noncomputable def heatkernel {n : ℕ} (G : PyGraph n) (k : ℝ) : Except PyErr IndResult :=
  if G.pytype = PyType.MultiGraph ∨ G.pytype = PyType.MultiDiGraph then
    .error (.exception ("heatkernel() not defined for graphs with multiedges."))
  else
    .ok (mkResult n (heatT G k))

/-- `pwp(G, k)` of pwp_alg.py.  Structure identical to `heatkernel` except for
the transform formula. -/
noncomputable def pwp {n : ℕ} (G : PyGraph n) (k : ℝ) : Except PyErr IndResult :=
  if G.pytype = PyType.MultiGraph ∨ G.pytype = PyType.MultiDiGraph then
    .error (.exception ("pwp() not defined for graphs with multiedges."))
  else
    .ok (mkResult n (pwpT G k))

/-- Modelled from the spec: `type(G)` reads the runtime class without touching
the graph. -/
def typeQuery {n : ℕ} (G : PyGraph n) : PyGraph n × PyType :=
  (G, G.pytype)

/-- Modelled from the spec: `G.is_directed()` is a read-only query. -/
def isDirectedQuery {n : ℕ} (G : PyGraph n) : PyGraph n × Bool :=
  (G, G.directed)

/-- Modelled from the spec: `G.to_directed()` builds a fresh directed copy and
returns the input state unchanged. -/
def toDirectedQuery {n : ℕ} (G : PyGraph n) : PyGraph n × PyGraph n :=
  (G, to_directed G)

/-- Modelled from the spec: `nx.adjacency_matrix(D)` reads `D`; the original
input graph state is unchanged. -/
def adjacencyQuery {n : ℕ} (G D : PyGraph n) : PyGraph n × Matrix (Fin n) (Fin n) ℝ :=
  (G, adjacency_matrix D)

/-- `heatkernel` with the state of the input graph threaded explicitly through
every operation the source performs on it, to make frame effects visible. -/
noncomputable def heatkernelRun {n : ℕ} (G : PyGraph n) (k : ℝ) :
    PyGraph n × Except PyErr IndResult :=
  let p1 := typeQuery G
  if p1.2 = PyType.MultiGraph ∨ p1.2 = PyType.MultiDiGraph then
    (p1.1, .error (.exception ("heatkernel() not defined for graphs with multiedges.")))
  else
    let p2 := isDirectedQuery p1.1
    let p3 := if p2.2 then (p2.1, p2.1) else toDirectedQuery p2.1
    let p4 := adjacencyQuery p3.1 p3.2
    (p4.1, .ok (mkResult n (expm (k • (p4.2.transpose - 1)))))

/-- `pwp` with the input-graph state threaded explicitly. -/
noncomputable def pwpRun {n : ℕ} (G : PyGraph n) (k : ℝ) :
    PyGraph n × Except PyErr IndResult :=
  let p1 := typeQuery G
  if p1.2 = PyType.MultiGraph ∨ p1.2 = PyType.MultiDiGraph then
    (p1.1, .error (.exception ("pwp() not defined for graphs with multiedges.")))
  else
    let p2 := isDirectedQuery p1.1
    let p3 := if p2.2 then (p2.1, p2.1) else toDirectedQuery p2.1
    let p4 := adjacencyQuery p3.1 p3.2
    (p4.1, .ok (mkResult n (Matrix.of fun i j =>
      (expm (k • p4.2.transpose) - 1) i j / expm1 k)))

/-- Whether an `Except` value is the non-raising branch. -/
def exceptOk {ε α : Type} : Except ε α → Bool
  | .ok _ => true
  | .error _ => false

/-- Keys of the influences dictionary, in insertion order. -/
def influenceKeys (r : IndResult) : List ℕ :=
  r.influences.map Prod.fst

/-- Keys of the dependences dictionary, in insertion order. -/
def dependenceKeys (r : IndResult) : List ℕ :=
  r.dependences.map Prod.fst

/-- Values of the influences dictionary, in key order. -/
def influenceValues (r : IndResult) : List ℝ :=
  r.influences.map Prod.snd

/-- Values of the dependences dictionary, in key order. -/
def dependenceValues (r : IndResult) : List ℝ :=
  r.dependences.map Prod.snd

/-- The graph's native node ids in iteration order. -/
def nodeList {n : ℕ} (G : PyGraph n) : List ℕ :=
  (List.finRange n).map G.nodes

/-! ## Spec-side definitions (for the refinement claims)

These follow the wording of the design document's Matrix-Function Scorer
(§4.2): shared reduction and normalization steps plus the two variant
transform formulas, stated directly rather than transcribed from the Python. -/

/-- Spec step 3: reduce `T` along axis 0 (column sums) into the raw influence
vector. -/
def specReduceInfluence {n : ℕ} (T : Matrix (Fin n) (Fin n) ℝ) : Fin n → ℝ :=
  fun j => ∑ i, T i j

/-- Spec step 4: reduce `T` along axis 1 (row sums) into the raw dependence
vector. -/
def specReduceDependence {n : ℕ} (T : Matrix (Fin n) (Fin n) ℝ) : Fin n → ℝ :=
  fun i => ∑ j, T i j

/-- Spec step 5: divide a raw vector by its own sum. -/
noncomputable def specNormalize {n : ℕ} (v : Fin n → ℝ) : Fin n → ℝ :=
  fun i => v i / ∑ j, v j

/-- Spec variant formula: `expm(k · (matrix_t − I))`. -/
noncomputable def heatkernelSpecTransform {n : ℕ} (At : Matrix (Fin n) (Fin n) ℝ) (k : ℝ) :
    Matrix (Fin n) (Fin n) ℝ :=
  NormedSpace.exp ℝ (k • (At - 1))

/-- Spec variant formula: `(expm(k · matrix_t) − I) / (exp(k) − 1)`. -/
noncomputable def pwpSpecTransform {n : ℕ} (At : Matrix (Fin n) (Fin n) ℝ) (k : ℝ) :
    Matrix (Fin n) (Fin n) ℝ :=
  (Real.exp k - 1)⁻¹ • (NormedSpace.exp ℝ (k • At) - 1)

/-! ## Concrete graphs used as witnesses and counterexamples -/

/-- The directed path `0 → 1` on nodes `0, 1`. -/
def path2 : PyGraph 2 :=
  { pytype := .DiGraph, directed := true, nodes := ![0, 1], adj := !![0, 1; 0, 0] }

/-- A single node `0` with a self-loop, as a directed graph. -/
def loop1 : PyGraph 1 :=
  { pytype := .DiGraph, directed := true, nodes := ![0], adj := 1 }

/-- The directed path `5 → 7` on native node ids `5, 7` (deliberately not
`0, 1`). -/
def g57 : PyGraph 2 :=
  { pytype := .DiGraph, directed := true, nodes := ![5, 7], adj := !![0, 1; 0, 0] }

/-- The undirected graph with nodes `0, 1, 2` and no edges. -/
def edgeless3 : PyGraph 3 :=
  { pytype := .Graph, directed := false, nodes := ![0, 1, 2], adj := 0 }

/-- An `nx.MultiGraph` instance (exact runtime type) on one node. -/
def multi1 : PyGraph 1 :=
  { pytype := .MultiGraph, directed := false, nodes := ![0], adj := 0 }

/-- An instance of a proper subclass of `nx.MultiGraph`, holding two parallel
edges between nodes `0` and `1` (aggregated adjacency weight `2`). -/
def multisub2 : PyGraph 2 :=
  { pytype := .MultiGraphSub, directed := false, nodes := ![0, 1], adj := !![0, 2; 2, 0] }

/-! ## Shared lemmas -/

theorem heatkernelRun_eq {n : ℕ} (G : PyGraph n) (k : ℝ) :
    heatkernelRun G k = (G, heatkernel G k) := by
  by_cases h : G.pytype = PyType.MultiGraph ∨ G.pytype = PyType.MultiDiGraph
  · simp [heatkernelRun, heatkernel, typeQuery, h]
  · cases hd : G.directed <;>
      simp [heatkernelRun, heatkernel, typeQuery, isDirectedQuery, toDirectedQuery,
        adjacencyQuery, heatT, matrix_t, directedView, h, hd]

theorem pwpRun_eq {n : ℕ} (G : PyGraph n) (k : ℝ) :
    pwpRun G k = (G, pwp G k) := by
  by_cases h : G.pytype = PyType.MultiGraph ∨ G.pytype = PyType.MultiDiGraph
  · simp [pwpRun, pwp, typeQuery, h]
  · cases hd : G.directed <;>
      simp [pwpRun, pwp, typeQuery, isDirectedQuery, toDirectedQuery,
        adjacencyQuery, pwpT, matrix_t, directedView, h, hd]

theorem expm_zero {n : ℕ} : expm (0 : Matrix (Fin n) (Fin n) ℝ) = 1 := by
  rw [expm, NormedSpace.exp_zero]

theorem expm_smul_one {n : ℕ} (c : ℝ) :
    expm (c • (1 : Matrix (Fin n) (Fin n) ℝ)) = Matrix.diagonal (fun _ => Real.exp c) := by
  rw [expm, Matrix.smul_one_eq_diagonal, Matrix.exp_diagonal]
  have h : (NormedSpace.exp ℝ fun _ : Fin n => c) = fun _ : Fin n => Real.exp c := by
    funext i
    rw [Pi.coe_exp, ← Real.exp_eq_exp_ℝ]
  rw [h]

theorem sum_one_col {n : ℕ} (j : Fin n) :
    (∑ i, (1 : Matrix (Fin n) (Fin n) ℝ) i j) = 1 := by
  simp [Matrix.one_apply]

theorem sum_one_row {n : ℕ} (i : Fin n) :
    (∑ j, (1 : Matrix (Fin n) (Fin n) ℝ) i j) = 1 := by
  simp [Matrix.one_apply]

theorem directedView_adj {n : ℕ} (G : PyGraph n) : (directedView G).adj = G.adj := by
  rw [directedView]
  cases hd : G.directed <;> simp [to_directed]

theorem sum_diagonal_col {n : ℕ} (v : Fin n → ℝ) (j : Fin n) :
    (∑ i, Matrix.diagonal v i j) = v j := by
  simp [Matrix.diagonal_apply]

theorem sum_diagonal_row {n : ℕ} (v : Fin n → ℝ) (i : Fin n) :
    (∑ j, Matrix.diagonal v i j) = v i := by
  simp [Matrix.diagonal_apply]

theorem influenceKeys_mkResult {n : ℕ} (T : Matrix (Fin n) (Fin n) ℝ) :
    influenceKeys (mkResult n T) = List.range n := by
  simp only [influenceKeys, mkResult, List.map_map, Function.comp_def]
  exact List.map_coe_finRange n

theorem dependenceKeys_mkResult {n : ℕ} (T : Matrix (Fin n) (Fin n) ℝ) :
    dependenceKeys (mkResult n T) = List.range n := by
  simp only [dependenceKeys, mkResult, List.map_map, Function.comp_def]
  exact List.map_coe_finRange n

theorem influenceValues_mkResult {n : ℕ} (T : Matrix (Fin n) (Fin n) ℝ) :
    influenceValues (mkResult n T)
      = (List.finRange n).map (specNormalize (specReduceInfluence T)) := by
  simp only [influenceValues, mkResult, List.map_map, Function.comp_def]
  rfl

theorem dependenceValues_mkResult {n : ℕ} (T : Matrix (Fin n) (Fin n) ℝ) :
    dependenceValues (mkResult n T)
      = (List.finRange n).map (specNormalize (specReduceDependence T)) := by
  simp only [dependenceValues, mkResult, List.map_map, Function.comp_def]
  rfl

theorem sum_specNormalize {n : ℕ} (v : Fin n → ℝ) (h : (∑ j, v j) ≠ 0) :
    (∑ j, specNormalize v j) = 1 := by
  simp only [specNormalize]
  rw [← Finset.sum_div, div_self h]

theorem mkResult_diagonal_const {n : ℕ} (c : ℝ) (hc : c ≠ 0) :
    mkResult n (Matrix.diagonal (fun _ : Fin n => c)) =
      { influences := (List.finRange n).map fun i => (i.val, 1 / (n : ℝ)),
        dependences := (List.finRange n).map fun i => (i.val, 1 / (n : ℝ)) } := by
  have hval : (c / ∑ _j2 : Fin n, c) = 1 / (n : ℝ) := by
    rcases Nat.eq_zero_or_pos n with h0 | hpos
    · subst h0
      simp
    · rw [Finset.sum_const, Finset.card_univ, Fintype.card_fin, nsmul_eq_mul, mul_comm,
        ← div_div, div_self hc]
  simp only [mkResult, sum_diagonal_col, sum_diagonal_row, hval]

theorem mkResult_one {n : ℕ} :
    mkResult n 1 =
      { influences := (List.finRange n).map fun i => (i.val, 1 / (n : ℝ)),
        dependences := (List.finRange n).map fun i => (i.val, 1 / (n : ℝ)) } := by
  rw [← Matrix.diagonal_one]
  exact mkResult_diagonal_const 1 one_ne_zero

/-! ## Claims -/

/-- Claim C1 counterexample: on the concrete directed path graph `path2`,
`pwp` called with `k = 0` does not raise: it returns a result, refuting the
claim that every such call surfaces a `DegenerateParameterError`. -/
theorem pwp_zero_k_counterexample : exceptOk (pwp path2 0) = true := by
  simp [pwp, path2, exceptOk]

/-- Claim C1 (amended): `pwp` performs no parameter validation at all.  For
every graph that passes the multiedge type check, the call with `k = 0` raises
nothing, even though its transform denominator `expm1 0 = exp 0 − 1` is `0`:
the code divides the all-zero numerator matrix by `0` anyway (in IEEE
arithmetic a NaN-filled result), instead of raising a typed error. -/
theorem pwp_zero_k_no_validation {n : ℕ} (G : PyGraph n)
    (h : ¬ (G.pytype = PyType.MultiGraph ∨ G.pytype = PyType.MultiDiGraph)) :
    exceptOk (pwp G 0) = true ∧ expm1 0 = 0 := by
  refine ⟨?_, ?_⟩
  · simp [pwp, h, exceptOk]
  · simp [expm1]

/-- Claim C1 witness: the amended statement at the one-node self-loop graph. -/
theorem pwp_zero_k_no_validation_witness :
    exceptOk (pwp loop1 0) = true ∧ expm1 0 = 0 :=
  pwp_zero_k_no_validation loop1 (by decide)

/-- Claim C2 counterexample: on the edgeless graph with nodes `0, 1, 2`,
neither `heatkernel` nor `pwp` raises anything — both return a result, refuting
the claim that both raise a `DegenerateInputError`. -/
theorem edgeless_counterexample :
    exceptOk (heatkernel edgeless3 1) = true ∧ exceptOk (pwp edgeless3 1) = true := by
  refine ⟨?_, ?_⟩ <;> simp [heatkernel, pwp, edgeless3, exceptOk]

/-- Claim C2 (amended): on an edgeless graph neither variant raises.
`heatkernel` is not even degenerate there: its transform is `exp(-k)·I`, whose
reduction sums are nonzero, so it returns the well-defined uniform distribution
`1/n`.  `pwp`'s raw reduction vector does sum to `0`, but the code performs the
`0/0` normalization anyway (NaN-filled output in IEEE arithmetic) instead of
raising a `DegenerateInputError`. -/
theorem edgeless_behavior {n : ℕ} (G : PyGraph n) (k : ℝ)
    (h : ¬ (G.pytype = PyType.MultiGraph ∨ G.pytype = PyType.MultiDiGraph))
    (hadj : G.adj = 0) :
    heatkernel G k =
      .ok { influences := (List.finRange n).map fun i => (i.val, 1 / (n : ℝ)),
            dependences := (List.finRange n).map fun i => (i.val, 1 / (n : ℝ)) }
    ∧ exceptOk (pwp G k) = true
    ∧ (∑ j, specReduceInfluence (pwpT G k) j) = 0 := by
  have hmt : matrix_t G = 0 := by
    rw [matrix_t, adjacency_matrix, directedView_adj, hadj, Matrix.transpose_zero]
  refine ⟨?_, ?_, ?_⟩
  · have hT : heatT G k = Matrix.diagonal (fun _ : Fin n => Real.exp (-k)) := by
      rw [heatT, hmt]
      have hsm : k • ((0 : Matrix (Fin n) (Fin n) ℝ) - 1) = (-k) • 1 := by
        rw [zero_sub, smul_neg, neg_smul]
      rw [hsm, expm_smul_one]
    rw [heatkernel, if_neg h, hT, mkResult_diagonal_const _ (Real.exp_ne_zero (-k))]
  · simp [pwp, h, exceptOk]
  · simp [specReduceInfluence, pwpT, hmt, expm_zero]

/-- Claim C2 witness: the amended statement at the edgeless graph on nodes
`0, 1, 2` with `k = 1`. -/
theorem edgeless_behavior_witness :
    heatkernel edgeless3 1 =
      .ok { influences := (List.finRange 3).map fun i => (i.val, 1 / ((3 : ℕ) : ℝ)),
            dependences := (List.finRange 3).map fun i => (i.val, 1 / ((3 : ℕ) : ℝ)) }
    ∧ exceptOk (pwp edgeless3 1) = true
    ∧ (∑ j, specReduceInfluence (pwpT edgeless3 1) j) = 0 :=
  edgeless_behavior edgeless3 1 (by decide) rfl

/-- Claim C3 counterexample: on the directed path whose native node ids are
`5` and `7`, the influences dictionary is keyed `0, 1` — the raw matrix
indices — which is not the node set `5, 7`. -/
theorem result_keys_counterexample :
    (heatkernel g57 1).map influenceKeys = .ok [0, 1]
    ∧ nodeList g57 = [5, 7]
    ∧ ([0, 1] : List ℕ) ≠ [5, 7] := by
  refine ⟨?_, by decide, by decide⟩
  have : ¬ (g57.pytype = PyType.MultiGraph ∨ g57.pytype = PyType.MultiDiGraph) := by decide
  rw [heatkernel, if_neg this, Except.map, influenceKeys_mkResult]
  rfl

/-- Claim C3 (amended): for every graph passing the multiedge check, the key
list of both returned dictionaries is `range(n)` — the raw matrix indices, in
index order — for both variants.  The source never translates indices back to
native node ids, so the key set equals the node set only when the nodes are
exactly `0, ..., n-1`. -/
theorem result_keys_are_indices {n : ℕ} (G : PyGraph n) (k : ℝ)
    (h : ¬ (G.pytype = PyType.MultiGraph ∨ G.pytype = PyType.MultiDiGraph)) :
    (heatkernel G k).map influenceKeys = .ok (List.range n)
    ∧ (heatkernel G k).map dependenceKeys = .ok (List.range n)
    ∧ (pwp G k).map influenceKeys = .ok (List.range n)
    ∧ (pwp G k).map dependenceKeys = .ok (List.range n) := by
  rw [heatkernel, pwp, if_neg h, if_neg h]
  exact ⟨by rw [Except.map, influenceKeys_mkResult],
         by rw [Except.map, dependenceKeys_mkResult],
         by rw [Except.map, influenceKeys_mkResult],
         by rw [Except.map, dependenceKeys_mkResult]⟩

/-- Claim C3 witness: the amended statement at the directed path graph with
`k = 1`. -/
theorem result_keys_are_indices_witness :
    (heatkernel path2 1).map influenceKeys = .ok (List.range 2)
    ∧ (heatkernel path2 1).map dependenceKeys = .ok (List.range 2)
    ∧ (pwp path2 1).map influenceKeys = .ok (List.range 2)
    ∧ (pwp path2 1).map dependenceKeys = .ok (List.range 2) :=
  result_keys_are_indices path2 1 (by decide)

/-- Claim C6 counterexample: `multisub2` is an instance of a proper subclass of
`nx.MultiGraph` — it permits parallel edges (and here holds two, aggregated
weight `2`) — yet neither `heatkernel` nor `pwp` raises on it, refuting the
claim that every parallel-edge-permitting graph is rejected. -/
theorem multigraph_subclass_counterexample :
    permitsParallelEdges multisub2.pytype = true
    ∧ exceptOk (heatkernel multisub2 1) = true
    ∧ exceptOk (pwp multisub2 1) = true := by
  refine ⟨rfl, ?_, ?_⟩ <;> simp [heatkernel, pwp, multisub2, exceptOk]

/-- Claim C6 (amended): the rejection is an exact-runtime-type check.  A graph
whose `type()` is exactly `nx.MultiGraph` or `nx.MultiDiGraph` makes both
variants raise their multiedge exception immediately — the error value is the
whole result, so no matrix work happens — but instances of proper subclasses
are not rejected. -/
theorem multigraph_exact_type_rejection {n : ℕ} (G : PyGraph n) (k : ℝ)
    (h : G.pytype = PyType.MultiGraph ∨ G.pytype = PyType.MultiDiGraph) :
    heatkernel G k = .error (.exception ("heatkernel() not defined for graphs with multiedges."))
    ∧ pwp G k = .error (.exception ("pwp() not defined for graphs with multiedges.")) := by
  refine ⟨?_, ?_⟩ <;> simp [heatkernel, pwp, h]

/-- Claim C6 witness: the amended statement at an exact `nx.MultiGraph`
instance with `k = 1`. -/
theorem multigraph_exact_type_rejection_witness :
    heatkernel multi1 1 = .error (.exception ("heatkernel() not defined for graphs with multiedges."))
    ∧ pwp multi1 1 = .error (.exception ("pwp() not defined for graphs with multiedges.")) :=
  multigraph_exact_type_rejection multi1 1 (Or.inl rfl)

/-- Claim C9: the pipeline never mutates the input graph.  Threading the input
graph's state through every operation either source performs on it (`type`,
`is_directed`, `to_directed` — which builds a fresh copy — and
`adjacency_matrix`), the state after either call is the input graph unchanged:
same node ids, same adjacency (edge set and edge weights), same directedness,
for directed and undirected inputs alike. -/
theorem pipeline_never_mutates_input :
    ∀ (n : ℕ) (G : PyGraph n) (k : ℝ),
      ((heatkernelRun G k).1.nodes = G.nodes ∧ (heatkernelRun G k).1.adj = G.adj
        ∧ (heatkernelRun G k).1.directed = G.directed ∧ (heatkernelRun G k).1 = G)
      ∧ ((pwpRun G k).1.nodes = G.nodes ∧ (pwpRun G k).1.adj = G.adj
        ∧ (pwpRun G k).1.directed = G.directed ∧ (pwpRun G k).1 = G) := by
  intro n G k
  have h1 : (heatkernelRun G k).1 = G := by rw [heatkernelRun_eq]
  have h2 : (pwpRun G k).1 = G := by rw [pwpRun_eq]
  exact ⟨⟨by rw [h1], by rw [h1], by rw [h1], h1⟩,
         ⟨by rw [h2], by rw [h2], by rw [h2], h2⟩⟩

/-- Claim C10: the multiedge rejection fires iff the runtime type is exactly
`nx.MultiGraph` or `nx.MultiDiGraph`; an instance of a proper subclass — which
still permits parallel edges — is not rejected by either function, and the
computation proceeds on the multigraph. -/
theorem multiedge_rejection_iff_exact_type :
    (∀ (n : ℕ) (G : PyGraph n) (k : ℝ),
        exceptOk (heatkernel G k) = false
          ↔ (G.pytype = PyType.MultiGraph ∨ G.pytype = PyType.MultiDiGraph))
    ∧ (∀ (n : ℕ) (G : PyGraph n) (k : ℝ),
        exceptOk (pwp G k) = false
          ↔ (G.pytype = PyType.MultiGraph ∨ G.pytype = PyType.MultiDiGraph))
    ∧ permitsParallelEdges multisub2.pytype = true
    ∧ exceptOk (heatkernel multisub2 2) = true
    ∧ exceptOk (pwp multisub2 2) = true := by
  refine ⟨?_, ?_, rfl, ?_, ?_⟩
  · intro n G k
    by_cases h : G.pytype = PyType.MultiGraph ∨ G.pytype = PyType.MultiDiGraph <;>
      simp [heatkernel, h, exceptOk]
  · intro n G k
    by_cases h : G.pytype = PyType.MultiGraph ∨ G.pytype = PyType.MultiDiGraph <;>
      simp [pwp, h, exceptOk]
  · simp [heatkernel, multisub2, exceptOk]
  · simp [pwp, multisub2, exceptOk]

theorem pwpT_eq_specTransform {n : ℕ} (G : PyGraph n) (k : ℝ) :
    pwpT G k = pwpSpecTransform (matrix_t G) k := by
  ext i j
  simp [pwpT, pwpSpecTransform, expm, expm1, Matrix.sub_apply, div_eq_inv_mul]

/-- Claim C4: `heatkernel` computes exactly the spec's pipeline — transform
`expm(k·(Aᵗ − I))` on the transposed adjacency matrix, axis-0 reduction to the
raw influence vector, axis-1 reduction to the raw dependence vector, each
normalized by its own sum — with the spec-side pipeline stated independently
from the design document's words. -/
theorem heatkernel_matches_spec {n : ℕ} (G : PyGraph n) (k : ℝ)
    (h : ¬ (G.pytype = PyType.MultiGraph ∨ G.pytype = PyType.MultiDiGraph))
    (hdir : G.directed = true) :
    (heatkernel G k).map influenceValues
      = .ok ((List.finRange n).map
          (specNormalize (specReduceInfluence
            (heatkernelSpecTransform (adjacency_matrix G).transpose k))))
    ∧ (heatkernel G k).map dependenceValues
      = .ok ((List.finRange n).map
          (specNormalize (specReduceDependence
            (heatkernelSpecTransform (adjacency_matrix G).transpose k)))) := by
  have hmt : heatT G k = heatkernelSpecTransform (adjacency_matrix G).transpose k := by
    rw [heatT, heatkernelSpecTransform, expm, matrix_t, directedView, hdir, if_pos rfl]
  rw [heatkernel, if_neg h, hmt]
  exact ⟨by rw [Except.map, influenceValues_mkResult],
         by rw [Except.map, dependenceValues_mkResult]⟩

/-- Claim C4 witness: the statement at the directed path graph with `k = 1`. -/
theorem heatkernel_matches_spec_witness :
    (heatkernel path2 1).map influenceValues
      = .ok ((List.finRange 2).map
          (specNormalize (specReduceInfluence
            (heatkernelSpecTransform (adjacency_matrix path2).transpose 1))))
    ∧ (heatkernel path2 1).map dependenceValues
      = .ok ((List.finRange 2).map
          (specNormalize (specReduceDependence
            (heatkernelSpecTransform (adjacency_matrix path2).transpose 1)))) :=
  heatkernel_matches_spec path2 1 (by decide) rfl

/-- Claim C5: for `k ≠ 0`, `pwp` computes exactly the spec's pipeline —
transform `(expm(k·Aᵗ) − I) / (exp(k) − 1)` on the transposed adjacency
matrix, then the same reductions and per-vector normalization as
`heatkernel` — with the spec-side pipeline stated independently from the
design document's words. -/
theorem pwp_matches_spec {n : ℕ} (G : PyGraph n) (k : ℝ)
    (h : ¬ (G.pytype = PyType.MultiGraph ∨ G.pytype = PyType.MultiDiGraph))
    (hdir : G.directed = true) (_hk : k ≠ 0) :
    (pwp G k).map influenceValues
      = .ok ((List.finRange n).map
          (specNormalize (specReduceInfluence
            (pwpSpecTransform (adjacency_matrix G).transpose k))))
    ∧ (pwp G k).map dependenceValues
      = .ok ((List.finRange n).map
          (specNormalize (specReduceDependence
            (pwpSpecTransform (adjacency_matrix G).transpose k)))) := by
  have hmt : matrix_t G = (adjacency_matrix G).transpose := by
    rw [matrix_t, directedView, hdir, if_pos rfl]
  have hT : pwpT G k = pwpSpecTransform (adjacency_matrix G).transpose k := by
    rw [pwpT_eq_specTransform, hmt]
  rw [pwp, if_neg h, hT]
  exact ⟨by rw [Except.map, influenceValues_mkResult],
         by rw [Except.map, dependenceValues_mkResult]⟩

/-- Claim C5 witness: the statement at the directed path graph with `k = 1`. -/
theorem pwp_matches_spec_witness :
    (pwp path2 1).map influenceValues
      = .ok ((List.finRange 2).map
          (specNormalize (specReduceInfluence
            (pwpSpecTransform (adjacency_matrix path2).transpose 1))))
    ∧ (pwp path2 1).map dependenceValues
      = .ok ((List.finRange 2).map
          (specNormalize (specReduceDependence
            (pwpSpecTransform (adjacency_matrix path2).transpose 1)))) :=
  pwp_matches_spec path2 1 (by decide) rfl one_ne_zero

theorem matrix_t_loop1 : matrix_t loop1 = 1 := by
  simp [matrix_t, directedView, adjacency_matrix, loop1, Matrix.transpose_one]

theorem heatT_loop1 : heatT loop1 1 = 1 := by
  rw [heatT, matrix_t_loop1, sub_self, smul_zero, expm_zero]

theorem pwpT_loop1 : pwpT loop1 1 = 1 := by
  have hexp : expm ((1 : ℝ) • matrix_t loop1) = Matrix.diagonal fun _ : Fin 1 => Real.exp 1 := by
    rw [matrix_t_loop1]
    exact expm_smul_one 1
  rw [one_smul] at hexp
  have hne : Real.exp 1 - 1 ≠ 0 := by
    have := Real.exp_one_gt_d9
    intro hz
    rw [sub_eq_zero] at hz
    rw [hz] at this
    norm_num at this
  ext i j
  have hi : i = 0 := Subsingleton.elim i 0
  have hj : j = 0 := Subsingleton.elim j 0
  subst hi
  subst hj
  simp [pwpT, hexp, expm1, Matrix.sub_apply, Matrix.one_apply, div_self hne]

/-- Claim C7: whenever the raw reduction vectors of the computed transform have
nonzero sums, the returned influence values sum to exactly `1` and the returned
dependence values sum to exactly `1`, for both `heatkernel` and `pwp` (in the
real-arithmetic model; floating point adds only rounding around these exact
values). -/
theorem normalized_scores_sum_to_one {n : ℕ} (G : PyGraph n) (k : ℝ)
    (h : ¬ (G.pytype = PyType.MultiGraph ∨ G.pytype = PyType.MultiDiGraph))
    (hf : (∑ j, specReduceInfluence (heatT G k) j) ≠ 0)
    (hd : (∑ i, specReduceDependence (heatT G k) i) ≠ 0)
    (pf : (∑ j, specReduceInfluence (pwpT G k) j) ≠ 0)
    (pd : (∑ i, specReduceDependence (pwpT G k) i) ≠ 0) :
    (heatkernel G k).map (fun r => (influenceValues r).sum) = .ok 1
    ∧ (heatkernel G k).map (fun r => (dependenceValues r).sum) = .ok 1
    ∧ (pwp G k).map (fun r => (influenceValues r).sum) = .ok 1
    ∧ (pwp G k).map (fun r => (dependenceValues r).sum) = .ok 1 := by
  rw [heatkernel, pwp, if_neg h, if_neg h]
  refine ⟨?_, ?_, ?_, ?_⟩
  · rw [Except.map, influenceValues_mkResult, ← Fin.sum_univ_def, sum_specNormalize _ hf]
  · rw [Except.map, dependenceValues_mkResult, ← Fin.sum_univ_def, sum_specNormalize _ hd]
  · rw [Except.map, influenceValues_mkResult, ← Fin.sum_univ_def, sum_specNormalize _ pf]
  · rw [Except.map, dependenceValues_mkResult, ← Fin.sum_univ_def, sum_specNormalize _ pd]

/-- Claim C7 witness: the statement at the one-node self-loop graph with
`k = 1`, where all four raw sums are provably nonzero. -/
theorem normalized_scores_sum_to_one_witness :
    (heatkernel loop1 1).map (fun r => (influenceValues r).sum) = .ok 1
    ∧ (heatkernel loop1 1).map (fun r => (dependenceValues r).sum) = .ok 1
    ∧ (pwp loop1 1).map (fun r => (influenceValues r).sum) = .ok 1
    ∧ (pwp loop1 1).map (fun r => (dependenceValues r).sum) = .ok 1 :=
  normalized_scores_sum_to_one loop1 1 (by decide)
    (by simp [specReduceInfluence, heatT_loop1, Matrix.one_apply])
    (by simp [specReduceDependence, heatT_loop1, Matrix.one_apply])
    (by simp [specReduceInfluence, pwpT_loop1, Matrix.one_apply])
    (by simp [specReduceDependence, pwpT_loop1, Matrix.one_apply])

/-- Claim C8: for every graph passing the multiedge check, `heatkernel` with
`k = 0` returns the uniform distribution: the transform is `expm(0) = I`, so
every influence value and every dependence value is `1/n`. -/
theorem heatkernel_zero_k_uniform {n : ℕ} (G : PyGraph n)
    (h : ¬ (G.pytype = PyType.MultiGraph ∨ G.pytype = PyType.MultiDiGraph)) :
    heatkernel G 0 =
      .ok { influences := (List.finRange n).map fun i => (i.val, 1 / (n : ℝ)),
            dependences := (List.finRange n).map fun i => (i.val, 1 / (n : ℝ)) } := by
  have hT : heatT G 0 = 1 := by rw [heatT, zero_smul, expm_zero]
  rw [heatkernel, if_neg h, hT, mkResult_one]

/-- Claim C8 witness: the statement at the directed path graph on two nodes:
every score is `1/2`. -/
theorem heatkernel_zero_k_uniform_witness :
    heatkernel path2 0 =
      .ok { influences := (List.finRange 2).map fun i => (i.val, 1 / ((2 : ℕ) : ℝ)),
            dependences := (List.finRange 2).map fun i => (i.val, 1 / ((2 : ℕ) : ℝ)) } :=
  heatkernel_zero_k_uniform path2 (by decide)
